import Mathlib

/-!
Verification development for the Hyperspace client keepalive handler
(`src/cc/Hyperspace/ClientKeepaliveHandler.h`): the session keepalive
state machine, the handle registry, and the handle-event dispatch engine.

The registry operations (`RegisterHandle`, `UnregisterHandle`) are embedded
directly from the inline bodies in the header.  The session state machine,
the timer/response driver and the event dispatch loop are declared in the
header (`handle`, `mSessionStatePtr`, `mJeopardyTime`, `mExpireTime`,
`mLastKnownEvent`) but their implementation file is not part of the
repository snapshot, so those parts are modelled from the specification,
as marked on each definition.
-/

set_option autoImplicit false

namespace Hyperspace

/-- Session statuses of the client session state machine
(spec §4.1; the header stores the state behind `mSessionStatePtr`). -/
inductive SessionStatus where
  | Connected
  | Jeopardy
  | Expired
  | Closed
deriving DecidableEq, Repr

/-- A server-pushed per-handle event (spec §3 `HandleEvent`); the kind and
payload are opaque to the dispatch logic and collapsed into one field. -/
structure HandleEvent where
  handle_id : Nat
  event_seq : Nat
  kind : Nat
deriving DecidableEq, Repr

/-- The handle registry representation: `mHandleMap` in the header is a
`hash_map<uint64_t, HandleCallbackPtr>`, embedded as an association list
from handle id to an abstract callback value. -/
abbrev HandleMapT (α : Type) : Type := List (Nat × α)

/-- Lookup in the handle map: `mHandleMap.find(handle)`, returning the
callback when the handle id is present. -/
def hmFind {α : Type} : HandleMapT α → Nat → Option α
  | [], _ => none
  | (k, v) :: rest, h => if k = h then some v else hmFind rest h

/-- State of a `ClientKeepaliveHandler`, with one field per data member of
the class that the keepalive protocol reads or writes (times are in
milliseconds on a monotonic clock, embedded as `Nat`). -/
@[ext]
structure ClientKeepaliveHandler (α : Type) where
  mLastKeepAliveSendTime : Nat
  mJeopardyTime : Nat
  mExpireTime : Nat
  mLeaseInterval : Nat
  mKeepAliveInterval : Nat
  mGracePeriod : Nat
  mSessionState : SessionStatus
  mSessionId : Nat
  mLastKnownEvent : Nat
  mHandleMap : HandleMapT α
deriving DecidableEq

/-- Embedding of `ClientKeepaliveHandler::RegisterHandle`
(ClientKeepaliveHandler.h lines 52-56): looks `handle` up in `mHandleMap`,
`assert`s that it is absent, then stores `mHandleMap[handle] = callbackPtr`.
The assertion failure (a fatal programming error, not a recoverable return)
is modelled as `none`; the successful path returns the updated state. -/
def RegisterHandle {α : Type} (s : ClientKeepaliveHandler α) (handle : Nat)
    (callbackPtr : α) : Option (ClientKeepaliveHandler α) :=
  match hmFind s.mHandleMap handle with
  | some _ => none
  | none => some { s with mHandleMap := (handle, callbackPtr) :: s.mHandleMap }

/-- Embedding of `ClientKeepaliveHandler::UnregisterHandle`
(ClientKeepaliveHandler.h lines 58-60): `mHandleMap.erase(handle)`, which
removes the entry for `handle` when present and is a no-op otherwise. -/
def UnregisterHandle {α : Type} (s : ClientKeepaliveHandler α) (handle : Nat) :
    ClientKeepaliveHandler α :=
  { s with mHandleMap := s.mHandleMap.filter (fun p => p.1 != handle) }

/- Basic registry lemmas. -/

theorem hmFind_filter_self {α : Type} (m : HandleMapT α) (h : Nat) :
    hmFind (m.filter (fun p => p.1 != h)) h = none := by
  induction m with
  | nil => rfl
  | cons p rest ih =>
    by_cases hp : p.1 = h
    · simp [List.filter_cons, hp, ih]
    · simp [List.filter_cons, hp, hmFind, ih]

theorem hmFind_cons_self {α : Type} (m : HandleMapT α) (h : Nat) (cb : α) :
    hmFind ((h, cb) :: m) h = some cb := by
  simp [hmFind]

theorem hmFind_cons_ne {α : Type} (m : HandleMapT α) (h h2 : Nat) (cb : α)
    (hne : h2 ≠ h) : hmFind ((h, cb) :: m) h2 = hmFind m h2 := by
  simp only [hmFind]
  rw [if_neg (fun hc => hne hc.symm)]

/-- Observable callback invocations emitted while processing one driver
event: the session-level notifications of spec §4.1/§6 and the per-handle
deliveries and invalidations of spec §4.3/§4.4. -/
inductive Notification (α : Type) where
  | jeopardy
  | reconnected
  | expired
  | invalidated (handle : Nat) (cb : α)
  | handleEvent (handle : Nat) (cb : α) (event : HandleEvent)
deriving DecidableEq, Repr

/-- Whether a notification is a callback invalidation (emitted by the
expiry sweep). -/
def Notification.isInvalidation {α : Type} : Notification α → Bool
  | Notification.invalidated _ _ => true
  | _ => false

/-- Modelled from the spec: §4.3 `on_response_received` dispatch loop (the
implementation of `ClientKeepaliveHandler::handle` is not in the repository
snapshot, only its declaration and the `mLastKnownEvent` member).  For each
event with `event_seq > last_known_event_seq`, the handle is looked up in
the registry and, if present, its callback invoked exactly once, then
`last_known_event_seq` is advanced to `event_seq`; events at or below
`last_known_event_seq` are retransmissions and are skipped. -/
def deliverEvents {α : Type} :
    ClientKeepaliveHandler α → List HandleEvent →
      ClientKeepaliveHandler α × List (Notification α)
  | s, [] => (s, [])
  | s, e :: rest =>
    if s.mLastKnownEvent < e.event_seq then
      match hmFind s.mHandleMap e.handle_id with
      | some cb =>
        ((deliverEvents { s with mLastKnownEvent := e.event_seq } rest).1,
         Notification.handleEvent e.handle_id cb e ::
           (deliverEvents { s with mLastKnownEvent := e.event_seq } rest).2)
      | none => deliverEvents { s with mLastKnownEvent := e.event_seq } rest
    else
      deliverEvents s rest

/-- Modelled from the spec: §4.4 `invalidate_all` (not in the repository
snapshot).  Iterates all registry entries, invokes each callback's
invalidation notification exactly once, then clears the map. -/
def invalidateAll {α : Type} (s : ClientKeepaliveHandler α) :
    ClientKeepaliveHandler α × List (Notification α) :=
  ({ s with mHandleMap := [] },
   s.mHandleMap.map (fun p => Notification.invalidated p.1 p.2))

/-- The three event kinds delivered by the transport to the driver's single
entry point (spec §6), plus the explicit application shutdown request. -/
inductive DriverEvent where
  | timerFired (now : Nat)
  | responseReceived (now : Nat) (events : List HandleEvent)
  | connectionError (now : Nat)
  | close
deriving DecidableEq, Repr

/-- Modelled from the spec: §4.3 `on_response_received` lease renewal.
Updates `last_keepalive_send_time` to `now` and recomputes both deadlines
from the §3 invariant, returning to (or staying in) `Connected`. -/
def renewLease {α : Type} (s : ClientKeepaliveHandler α) (now : Nat) :
    ClientKeepaliveHandler α :=
  { s with
      mLastKeepAliveSendTime := now
      mJeopardyTime := now + s.mLeaseInterval
      mExpireTime := now + s.mLeaseInterval + s.mGracePeriod
      mSessionState := SessionStatus.Connected }

/-- Modelled from the spec: §4.1 transition rules and §4.3 driver handlers
(the implementation of `ClientKeepaliveHandler::handle` is not in the
repository snapshot).  `Expired` and `Closed` are terminal, so any event
arriving in them is discarded.  A timer tick compares `now` against the
stored deadlines: past `mExpireTime` the session expires and the registry
is swept; past `mJeopardyTime` a connected session enters `Jeopardy`.  A
response before `mExpireTime` renews the lease, recovers from `Jeopardy`
(announcing `reconnected`), and dispatches the piggybacked events.  A
connection error forces no state transition (§4.3); `close` transitions a
live session to `Closed`. -/
def step {α : Type} (s : ClientKeepaliveHandler α) (ev : DriverEvent) :
    ClientKeepaliveHandler α × List (Notification α) :=
  if s.mSessionState = SessionStatus.Expired ∨
      s.mSessionState = SessionStatus.Closed then
    (s, [])
  else
    match ev with
    | DriverEvent.timerFired now =>
      if s.mExpireTime < now then
        ((invalidateAll { s with mSessionState := SessionStatus.Expired }).1,
         Notification.expired ::
           (invalidateAll { s with mSessionState := SessionStatus.Expired }).2)
      else if s.mJeopardyTime < now then
        if s.mSessionState = SessionStatus.Connected then
          ({ s with mSessionState := SessionStatus.Jeopardy },
           [Notification.jeopardy])
        else (s, [])
      else (s, [])
    | DriverEvent.responseReceived now events =>
      if s.mSessionState = SessionStatus.Jeopardy then
        if now ≤ s.mExpireTime then
          ((deliverEvents (renewLease s now) events).1,
           Notification.reconnected ::
             (deliverEvents (renewLease s now) events).2)
        else (s, [])
      else deliverEvents (renewLease s now) events
    | DriverEvent.connectionError _ => (s, [])
    | DriverEvent.close =>
      ({ s with mSessionState := SessionStatus.Closed }, [])

/-- Modelled from the spec: §4.1 initial state.  A session established at
time `t0` starts `Connected` with `last_keepalive_send_time = t0` and the
deadlines given by the §3 invariant; `keepalive_interval` defaults to a
third of the lease (§6). -/
def initHandler (α : Type) (t0 leaseInterval gracePeriod : Nat) :
    ClientKeepaliveHandler α :=
  { mLastKeepAliveSendTime := t0
    mJeopardyTime := t0 + leaseInterval
    mExpireTime := t0 + leaseInterval + gracePeriod
    mLeaseInterval := leaseInterval
    mKeepAliveInterval := leaseInterval / 3
    mGracePeriod := gracePeriod
    mSessionState := SessionStatus.Connected
    mSessionId := 0
    mLastKnownEvent := 0
    mHandleMap := [] }

/-- A run in which no renewing response is ever received: the driver
processes a sequence of timer ticks and nothing else. -/
def runTicks {α : Type} :
    ClientKeepaliveHandler α → List Nat →
      ClientKeepaliveHandler α × List (Notification α)
  | s, [] => (s, [])
  | s, t :: ts =>
    ((runTicks (step s (DriverEvent.timerFired t)).1 ts).1,
     (step s (DriverEvent.timerFired t)).2 ++
       (runTicks (step s (DriverEvent.timerFired t)).1 ts).2)

/-- Demonstration registry state used to instantiate the registry theorems:
three handles registered, ids 1, 2 and 3, callbacks numbered 10, 20, 30. -/
def regDemo : ClientKeepaliveHandler Nat :=
  { mLastKeepAliveSendTime := 0
    mJeopardyTime := 10
    mExpireTime := 15
    mLeaseInterval := 10
    mKeepAliveInterval := 3
    mGracePeriod := 5
    mSessionState := SessionStatus.Connected
    mSessionId := 77
    mLastKnownEvent := 0
    mHandleMap := [(1, 10), (2, 20), (3, 30)] }

/-- Claim C4: `RegisterHandle(h, cb)` fails as a fatal programming error
(the `assert` on line 54 of the header, modelled as `none`) when `h` is
already registered; otherwise it inserts the mapping `h -> cb` and
succeeds; in particular a second `RegisterHandle(h, cb2)` without an
intervening `UnregisterHandle(h)` is rejected. -/
theorem registerHandle_duplicate_fatal {α : Type} (s : ClientKeepaliveHandler α)
    (h : Nat) (cb cb2 : α) :
    ((∃ cb0, hmFind s.mHandleMap h = some cb0) → RegisterHandle s h cb = none) ∧
    (hmFind s.mHandleMap h = none →
      RegisterHandle s h cb =
        some { s with mHandleMap := (h, cb) :: s.mHandleMap }) ∧
    (∀ s', RegisterHandle s h cb = some s' → RegisterHandle s' h cb2 = none) := by
  refine ⟨fun ⟨cb0, hf⟩ => ?_, fun hf => ?_, fun s' hs' => ?_⟩
  · simp [RegisterHandle, hf]
  · simp [RegisterHandle, hf]
  · unfold RegisterHandle at hs' ⊢
    cases hf : hmFind s.mHandleMap h with
    | some cb0 => rw [hf] at hs'; exact absurd hs' (by simp)
    | none =>
      rw [hf] at hs'
      have : s' = { s with mHandleMap := (h, cb) :: s.mHandleMap } := by
        exact (Option.some.injEq _ _ ▸ hs').symm ▸ rfl
      subst this
      simp [hmFind_cons_self]

/-- Claim C4 witness: on the demonstration registry, re-registering the
already registered id 1 is rejected, registering the fresh id 4 succeeds,
and registering id 4 a second time is rejected. -/
theorem registerHandle_duplicate_fatal_witness :
    RegisterHandle regDemo 1 99 = none ∧
    RegisterHandle regDemo 4 44 =
      some { regDemo with mHandleMap := (4, 44) :: regDemo.mHandleMap } ∧
    RegisterHandle { regDemo with mHandleMap := (4, 44) :: regDemo.mHandleMap }
      4 45 = none := by
  have h1 := (registerHandle_duplicate_fatal regDemo 1 (99 : Nat) 99).1 ⟨10, by decide⟩
  have h4 := registerHandle_duplicate_fatal regDemo 4 (44 : Nat) 45
  have h2 := h4.2.1 (by decide)
  exact ⟨h1, h2, h4.2.2 _ h2⟩

/-- Claim C8: starting from a handler whose registry is empty,
`RegisterHandle(h, cb)` followed by `UnregisterHandle(h)` leaves the
registry empty. -/
theorem register_unregister_empty {α : Type} (s : ClientKeepaliveHandler α)
    (h : Nat) (cb : α) (hemp : s.mHandleMap = []) :
    (RegisterHandle s h cb).map
      (fun s' => (UnregisterHandle s' h).mHandleMap) = some [] := by
  simp only [RegisterHandle, hemp, hmFind, Option.map_some, UnregisterHandle]
  simp [List.filter_cons]

/-- Claim C8 witness: on a fresh handler (the demonstration state with its
registry emptied), register id 7 then unregister id 7 yields the empty
registry. -/
theorem register_unregister_empty_witness :
    (RegisterHandle { regDemo with mHandleMap := [] } 7 70).map
      (fun s' => (UnregisterHandle s' 7).mHandleMap) = some [] :=
  register_unregister_empty { regDemo with mHandleMap := [] } 7 70 rfl

/-- Claim C9: when `h` is not yet registered, `RegisterHandle(h, cb)` adds
exactly the single mapping `h -> cb`: the result is the input state with
only `mHandleMap` extended by `(h, cb)` (every timing, status, and id field
is untouched by the record update), the new map answers `cb` for `h`, and
answers exactly as before for every other handle id. -/
theorem registerHandle_frame {α : Type} (s : ClientKeepaliveHandler α)
    (h : Nat) (cb : α) (hab : hmFind s.mHandleMap h = none) :
    RegisterHandle s h cb =
      some { s with mHandleMap := (h, cb) :: s.mHandleMap } ∧
    hmFind ((h, cb) :: s.mHandleMap) h = some cb ∧
    (∀ h2, h2 ≠ h → hmFind ((h, cb) :: s.mHandleMap) h2 = hmFind s.mHandleMap h2) := by
  refine ⟨by simp [RegisterHandle, hab], hmFind_cons_self _ _ _, fun h2 hne => ?_⟩
  exact hmFind_cons_ne _ _ _ _ hne

/-- Claim C9 witness: registering the fresh id 4 on the demonstration
registry succeeds with only the map extended, looks up as 44 afterward, and
the mapping of the other id 2 is unchanged. -/
theorem registerHandle_frame_witness :
    RegisterHandle regDemo 4 44 =
      some { regDemo with mHandleMap := (4, 44) :: regDemo.mHandleMap } ∧
    hmFind ((4, 44) :: regDemo.mHandleMap) 4 = some 44 ∧
    hmFind ((4, 44) :: regDemo.mHandleMap) 2 = hmFind regDemo.mHandleMap 2 := by
  have h := registerHandle_frame regDemo 4 44 (by decide)
  exact ⟨h.1, h.2.1, h.2.2 2 (by decide)⟩

/-- Claim C10: after `UnregisterHandle(h)` the id `h` is absent from the
registry, so a subsequent `RegisterHandle(h, cb)` satisfies the `assert`
precondition and succeeds, after which lookup of `h` returns `cb`:
re-registration of a previously unregistered handle id is always
permitted. -/
theorem unregister_then_reregister {α : Type} (s : ClientKeepaliveHandler α)
    (h : Nat) (cb : α) :
    hmFind (UnregisterHandle s h).mHandleMap h = none ∧
    RegisterHandle (UnregisterHandle s h) h cb =
      some { UnregisterHandle s h with
               mHandleMap := (h, cb) :: (UnregisterHandle s h).mHandleMap } ∧
    hmFind ((h, cb) :: (UnregisterHandle s h).mHandleMap) h = some cb := by
  have habs : hmFind (UnregisterHandle s h).mHandleMap h = none :=
    hmFind_filter_self s.mHandleMap h
  exact ⟨habs, by simp [RegisterHandle, habs], hmFind_cons_self _ _ _⟩

/-- Demonstration dispatch state: the demonstration registry with the last
acknowledged event sequence number at 6. -/
def dispatchDemo : ClientKeepaliveHandler Nat :=
  { regDemo with mLastKnownEvent := 6 }

/-- Claim C2: an event whose sequence number is at or below
`mLastKnownEvent` is a retransmission and invokes no handle callback (the
dispatch state is untouched); consequently delivering the same event twice
produces exactly one callback invocation for it. -/
theorem duplicate_event_suppressed {α : Type} (s : ClientKeepaliveHandler α)
    (e : HandleEvent) :
    (e.event_seq ≤ s.mLastKnownEvent → deliverEvents s [e] = (s, [])) ∧
    (∀ cb, s.mLastKnownEvent < e.event_seq →
      hmFind s.mHandleMap e.handle_id = some cb →
      (deliverEvents s [e]).2 ++
          (deliverEvents (deliverEvents s [e]).1 [e]).2 =
        [Notification.handleEvent e.handle_id cb e]) := by
  constructor
  · intro hle
    simp [deliverEvents, Nat.not_lt.mpr hle]
  · intro cb hlt hfind
    simp [deliverEvents, hlt, hfind]

/-- Claim C2 witness: at `mLastKnownEvent = 6`, the retransmitted event
with sequence 6 invokes nothing, while delivering the fresh event with
sequence 7 twice invokes the callback of handle 1 exactly once. -/
theorem duplicate_event_suppressed_witness :
    deliverEvents dispatchDemo [HandleEvent.mk 1 6 0] = (dispatchDemo, []) ∧
    (deliverEvents dispatchDemo [HandleEvent.mk 1 7 0]).2 ++
        (deliverEvents (deliverEvents dispatchDemo [HandleEvent.mk 1 7 0]).1
          [HandleEvent.mk 1 7 0]).2 =
      [Notification.handleEvent 1 10 (HandleEvent.mk 1 7 0)] :=
  ⟨(duplicate_event_suppressed dispatchDemo (HandleEvent.mk 1 6 0)).1 (by decide),
   (duplicate_event_suppressed dispatchDemo (HandleEvent.mk 1 7 0)).2 10
     (by decide) (by decide)⟩

/-- Claim C7: an event whose handle id is not in the registry is dropped
silently: no callback is invoked and the state is unchanged apart from the
normal advance of `mLastKnownEvent` (status, deadlines and all other
fields are exactly those of the input state). -/
theorem unknown_handle_dropped {α : Type} (s : ClientKeepaliveHandler α)
    (e : HandleEvent) (habs : hmFind s.mHandleMap e.handle_id = none) :
    (deliverEvents s [e]).2 = [] ∧
    (deliverEvents s [e]).1 =
      { s with mLastKnownEvent := max s.mLastKnownEvent e.event_seq } := by
  by_cases hlt : s.mLastKnownEvent < e.event_seq
  · constructor
    · simp [deliverEvents, hlt, habs]
    · simp only [deliverEvents, if_pos hlt, habs]
      rw [Nat.max_eq_right (Nat.le_of_lt hlt)]
  · constructor
    · simp [deliverEvents, hlt]
    · simp only [deliverEvents, if_neg hlt]
      rw [Nat.max_eq_left (Nat.not_lt.mp hlt)]

/-- Claim C7 witness: an event for the never-registered handle id 9
produces no invocation, and only `mLastKnownEvent` advances. -/
theorem unknown_handle_dropped_witness :
    (deliverEvents dispatchDemo [HandleEvent.mk 9 8 0]).2 = [] ∧
    (deliverEvents dispatchDemo [HandleEvent.mk 9 8 0]).1 =
      { dispatchDemo with mLastKnownEvent := max dispatchDemo.mLastKnownEvent 8 } :=
  unknown_handle_dropped dispatchDemo (HandleEvent.mk 9 8 0) (by decide)

/-- The sequence numbers of the events dispatched to the callback of one
given handle id, in dispatch order. -/
def eventSeqsFor {α : Type} (hid : Nat) : List (Notification α) → List Nat :=
  List.filterMap (fun n =>
    match n with
    | Notification.handleEvent h _ e =>
      if h = hid then some e.event_seq else none
    | _ => none)

theorem eventSeqsFor_cons_handleEvent {α : Type} (hid h : Nat) (cb : α)
    (e : HandleEvent) (tr : List (Notification α)) :
    eventSeqsFor hid (Notification.handleEvent h cb e :: tr) =
      if h = hid then e.event_seq :: eventSeqsFor hid tr
      else eventSeqsFor hid tr := by
  by_cases hh : h = hid <;> simp [eventSeqsFor, List.filterMap_cons, hh]

/-- Every sequence number dispatched by `deliverEvents` to any one handle
exceeds the incoming `mLastKnownEvent`, and the dispatched sequence numbers
for that handle are strictly increasing. -/
theorem deliverEvents_seqs_lt {α : Type} (s : ClientKeepaliveHandler α)
    (evs : List HandleEvent) (hid : Nat) :
    (∀ x ∈ eventSeqsFor hid (deliverEvents s evs).2, s.mLastKnownEvent < x) ∧
    (eventSeqsFor hid (deliverEvents s evs).2).Pairwise (· < ·) := by
  induction evs generalizing s with
  | nil => simp [deliverEvents, eventSeqsFor]
  | cons e rest ih =>
    by_cases hlt : s.mLastKnownEvent < e.event_seq
    · have ihs := ih { s with mLastKnownEvent := e.event_seq }
      cases hfind : hmFind s.mHandleMap e.handle_id with
      | none =>
        simp only [deliverEvents, if_pos hlt, hfind]
        exact ⟨fun x hx => Nat.lt_trans hlt (ihs.1 x hx), ihs.2⟩
      | some cb =>
        simp only [deliverEvents, if_pos hlt, hfind,
          eventSeqsFor_cons_handleEvent]
        by_cases hh : e.handle_id = hid
        · rw [if_pos hh]
          refine ⟨fun x hx => ?_, List.pairwise_cons.mpr ⟨ihs.1, ihs.2⟩⟩
          rcases List.mem_cons.mp hx with hx | hx
          · exact hx ▸ hlt
          · exact Nat.lt_trans hlt (ihs.1 x hx)
        · rw [if_neg hh]
          exact ⟨fun x hx => Nat.lt_trans hlt (ihs.1 x hx), ihs.2⟩
    · simp only [deliverEvents, if_neg hlt]
      exact ih s

/-- Claim C5: when the incoming events of a response batch are
non-decreasing in sequence number, the events dispatched to any one
handle's callback are dispatched in non-decreasing sequence-number order
(the dispatch engine in fact makes them strictly increasing). -/
theorem dispatch_order_per_handle {α : Type} (s : ClientKeepaliveHandler α)
    (evs : List HandleEvent) (hid : Nat)
    (_hsorted : evs.Pairwise (fun a b => a.event_seq ≤ b.event_seq)) :
    (eventSeqsFor hid (deliverEvents s evs).2).Pairwise (· ≤ ·) :=
  (deliverEvents_seqs_lt s evs hid).2.imp (fun h => Nat.le_of_lt h)

/-- Claim C5 witness: a non-decreasing batch interleaving handles 1 and 2,
with a duplicate of sequence 8 for handle 1, dispatches to handle 1 in
non-decreasing order. -/
theorem dispatch_order_per_handle_witness :
    (eventSeqsFor 1 (deliverEvents dispatchDemo
        [HandleEvent.mk 1 7 0, HandleEvent.mk 2 7 1,
         HandleEvent.mk 1 8 2, HandleEvent.mk 1 8 3]).2).Pairwise (· ≤ ·) :=
  dispatch_order_per_handle dispatchDemo
    [HandleEvent.mk 1 7 0, HandleEvent.mk 2 7 1,
     HandleEvent.mk 1 8 2, HandleEvent.mk 1 8 3] 1 (by decide)

/- Step-level helper lemmas about the driver state machine. -/

theorem step_terminal {α : Type} (s : ClientKeepaliveHandler α) (ev : DriverEvent)
    (h : s.mSessionState = SessionStatus.Expired ∨
         s.mSessionState = SessionStatus.Closed) :
    step s ev = (s, []) := by
  unfold step
  rw [if_pos h]

theorem step_timer_expire {α : Type} (s : ClientKeepaliveHandler α) (now : Nat)
    (h1 : s.mSessionState = SessionStatus.Connected ∨
          s.mSessionState = SessionStatus.Jeopardy)
    (h2 : s.mExpireTime < now) :
    step s (DriverEvent.timerFired now) =
      ({ s with mSessionState := SessionStatus.Expired, mHandleMap := [] },
       Notification.expired ::
         s.mHandleMap.map (fun p => Notification.invalidated p.1 p.2)) := by
  have hguard : ¬(s.mSessionState = SessionStatus.Expired ∨
      s.mSessionState = SessionStatus.Closed) := by
    rcases h1 with h | h <;> simp [h]
  simp [step, hguard, h2, invalidateAll]

theorem step_timer_jeopardy {α : Type} (s : ClientKeepaliveHandler α) (now : Nat)
    (hC : s.mSessionState = SessionStatus.Connected)
    (h2 : now ≤ s.mExpireTime) (h3 : s.mJeopardyTime < now) :
    step s (DriverEvent.timerFired now) =
      ({ s with mSessionState := SessionStatus.Jeopardy },
       [Notification.jeopardy]) := by
  have hguard : ¬(s.mSessionState = SessionStatus.Expired ∨
      s.mSessionState = SessionStatus.Closed) := by simp [hC]
  simp [step, hguard, Nat.not_lt.mpr h2, h3, hC]

theorem step_timer_quiet_connected {α : Type} (s : ClientKeepaliveHandler α)
    (now : Nat) (hC : s.mSessionState = SessionStatus.Connected)
    (hJE : s.mJeopardyTime ≤ s.mExpireTime) (hnow : now ≤ s.mJeopardyTime) :
    step s (DriverEvent.timerFired now) = (s, []) := by
  have hguard : ¬(s.mSessionState = SessionStatus.Expired ∨
      s.mSessionState = SessionStatus.Closed) := by simp [hC]
  simp [step, hguard, Nat.not_lt.mpr (Nat.le_trans hnow hJE),
    Nat.not_lt.mpr hnow]

theorem step_timer_quiet_jeopardy {α : Type} (s : ClientKeepaliveHandler α)
    (now : Nat) (hJ : s.mSessionState = SessionStatus.Jeopardy)
    (hnow : now ≤ s.mExpireTime) :
    step s (DriverEvent.timerFired now) = (s, []) := by
  have hguard : ¬(s.mSessionState = SessionStatus.Expired ∨
      s.mSessionState = SessionStatus.Closed) := by simp [hJ]
  by_cases hJt : s.mJeopardyTime < now
  · simp [step, hguard, Nat.not_lt.mpr hnow, hJt, hJ]
  · simp [step, hguard, Nat.not_lt.mpr hnow, hJt]

theorem step_timer_frame {α : Type} (s : ClientKeepaliveHandler α) (t : Nat) :
    (step s (DriverEvent.timerFired t)).1.mJeopardyTime = s.mJeopardyTime ∧
    (step s (DriverEvent.timerFired t)).1.mExpireTime = s.mExpireTime ∧
    (s.mSessionState ≠ SessionStatus.Closed →
      (step s (DriverEvent.timerFired t)).1.mSessionState ≠
        SessionStatus.Closed) := by
  by_cases hterm : s.mSessionState = SessionStatus.Expired ∨
      s.mSessionState = SessionStatus.Closed
  · rw [step_terminal s _ hterm]
    exact ⟨rfl, rfl, fun h => h⟩
  · by_cases hEt : s.mExpireTime < t
    · simp [step, hterm, hEt, invalidateAll]
    · by_cases hJt : s.mJeopardyTime < t
      · by_cases hC : s.mSessionState = SessionStatus.Connected
        · simp [step, hterm, hEt, hJt, hC]
        · simp [step, hterm, hEt, hJt, hC]
      · simp [step, hterm, hEt, hJt]

theorem deliverEvents_no_invalidation {α : Type} (s : ClientKeepaliveHandler α)
    (evs : List HandleEvent) :
    ∀ n ∈ (deliverEvents s evs).2, n.isInvalidation = false := by
  induction evs generalizing s with
  | nil => simp [deliverEvents]
  | cons e rest ih =>
    by_cases hlt : s.mLastKnownEvent < e.event_seq
    · cases hfind : hmFind s.mHandleMap e.handle_id with
      | none =>
        simp only [deliverEvents, if_pos hlt, hfind]
        exact ih _
      | some cb =>
        simp only [deliverEvents, if_pos hlt, hfind]
        intro n hn
        rcases List.mem_cons.mp hn with h | h
        · subst h; rfl
        · exact ih _ n h
    · simp only [deliverEvents, if_neg hlt]
      exact ih s

theorem step_no_invalidation_of_not_expired {α : Type}
    (s : ClientKeepaliveHandler α) (ev : DriverEvent)
    (h : (step s ev).1.mSessionState ≠ SessionStatus.Expired) :
    ∀ n ∈ (step s ev).2, n.isInvalidation = false := by
  by_cases hterm : s.mSessionState = SessionStatus.Expired ∨
      s.mSessionState = SessionStatus.Closed
  · rw [step_terminal s ev hterm]
    simp
  · cases ev with
    | timerFired now =>
      by_cases hEt : s.mExpireTime < now
      · exfalso
        apply h
        have hCJ : s.mSessionState = SessionStatus.Connected ∨
            s.mSessionState = SessionStatus.Jeopardy := by
          cases hst : s.mSessionState with
          | Connected => exact Or.inl rfl
          | Jeopardy => exact Or.inr rfl
          | Expired => exact absurd (Or.inl hst) hterm
          | Closed => exact absurd (Or.inr hst) hterm
        rw [step_timer_expire s now hCJ hEt]
      · by_cases hJt : s.mJeopardyTime < now
        · by_cases hC : s.mSessionState = SessionStatus.Connected
          · simp [step, hterm, hEt, hJt, hC, Notification.isInvalidation]
          · simp [step, hterm, hEt, hJt, hC]
        · simp [step, hterm, hEt, hJt]
    | responseReceived now events =>
      by_cases hjeo : s.mSessionState = SessionStatus.Jeopardy
      · by_cases hrec : now ≤ s.mExpireTime
        · simp only [step, hterm, if_neg hterm, hjeo, if_pos hjeo, if_pos hrec]
          intro n hn
          rcases List.mem_cons.mp hn with hh | hh
          · subst hh; rfl
          · exact deliverEvents_no_invalidation _ _ n hh
        · simp [step, hterm, hjeo, hrec]
      · simp only [step, if_neg hterm, if_neg hjeo]
        exact deliverEvents_no_invalidation _ _
    | connectionError now => simp [step, hterm]
    | close => simp [step, hterm]

theorem countP_invalidation_map {α : Type} (l : HandleMapT α) :
    (l.map (fun p => Notification.invalidated p.1 p.2)).countP
      (fun n => n.isInvalidation) = l.length := by
  induction l with
  | nil => rfl
  | cons p rest ih =>
    simp [List.countP_cons, Notification.isInvalidation, ih]

/-- Claim C3: taking the `Expired` transition from a live session invokes
the invalidation notification of each registered callback exactly once
(one `invalidated` entry per registry entry, `n` in total) and clears the
registry, so every subsequent lookup answers not-found; and invalidations
are emitted only by the `Expired` transition: a step whose result is not
`Expired` emits none. -/
theorem expired_sweep {α : Type} (s : ClientKeepaliveHandler α) (now : Nat)
    (ev : DriverEvent) :
    ((s.mSessionState = SessionStatus.Connected ∨
        s.mSessionState = SessionStatus.Jeopardy) →
      s.mExpireTime < now →
      step s (DriverEvent.timerFired now) =
        ({ s with mSessionState := SessionStatus.Expired, mHandleMap := [] },
         Notification.expired ::
           s.mHandleMap.map (fun p => Notification.invalidated p.1 p.2)) ∧
      (step s (DriverEvent.timerFired now)).2.countP
          (fun n => n.isInvalidation) = s.mHandleMap.length ∧
      (∀ hid, hmFind (step s (DriverEvent.timerFired now)).1.mHandleMap hid =
        none)) ∧
    ((step s ev).1.mSessionState ≠ SessionStatus.Expired →
      ∀ n ∈ (step s ev).2, n.isInvalidation = false) := by
  constructor
  · intro h1 h2
    have hstep := step_timer_expire s now h1 h2
    refine ⟨hstep, ?_, ?_⟩
    · rw [hstep]
      simp [List.countP_cons, Notification.isInvalidation,
        countP_invalidation_map]
    · intro hid
      rw [hstep]
      rfl
  · exact step_no_invalidation_of_not_expired s ev

/-- Claim C3 witness: the demonstration state holds 3 handles; a tick past
the expire deadline emits the `expired` notification followed by exactly 3
invalidations and clears the registry, while the jeopardy transition (a
step that does not end in `Expired`) emits no invalidation. -/
theorem expired_sweep_witness :
    step regDemo (DriverEvent.timerFired 16) =
      ({ regDemo with
           mSessionState := SessionStatus.Expired, mHandleMap := [] },
       [Notification.expired, Notification.invalidated 1 10,
        Notification.invalidated 2 20, Notification.invalidated 3 30]) ∧
    hmFind (step regDemo (DriverEvent.timerFired 16)).1.mHandleMap 2 = none ∧
    (Notification.jeopardy : Notification Nat).isInvalidation = false := by
  have h := (expired_sweep regDemo 16 (DriverEvent.timerFired 12)).1
    (Or.inl rfl) (by decide)
  have honly := (expired_sweep regDemo 16 (DriverEvent.timerFired 12)).2
    (by decide) Notification.jeopardy (by decide)
  exact ⟨h.1.trans (by decide), h.2.2 2, honly⟩

/-- Claim C6: `Expired` and `Closed` are terminal: any driver event (timer,
response, connection error, close) processed there leaves the session
status unchanged; moreover after an explicit close every handler entry
point is a no-op that discards the event without effect or error, making
shutdown idempotent. -/
theorem terminal_states_absorb {α : Type} (s : ClientKeepaliveHandler α)
    (ev : DriverEvent) :
    ((s.mSessionState = SessionStatus.Expired ∨
        s.mSessionState = SessionStatus.Closed) →
      (step s ev).1.mSessionState = s.mSessionState) ∧
    (s.mSessionState = SessionStatus.Closed → step s ev = (s, [])) := by
  constructor
  · intro h
    rw [step_terminal s ev h]
  · intro h
    exact step_terminal s ev (Or.inr h)

/-- Claim C6 witness: an expired session ignores a late timer tick, and a
closed session discards an incoming response (with piggybacked events)
outright. -/
theorem terminal_states_absorb_witness :
    (step { regDemo with mSessionState := SessionStatus.Expired }
        (DriverEvent.timerFired 100)).1.mSessionState =
      SessionStatus.Expired ∧
    step { regDemo with mSessionState := SessionStatus.Closed }
        (DriverEvent.responseReceived 7 [HandleEvent.mk 1 9 0]) =
      ({ regDemo with mSessionState := SessionStatus.Closed }, []) :=
  ⟨(terminal_states_absorb
      { regDemo with mSessionState := SessionStatus.Expired }
      (DriverEvent.timerFired 100)).1 (Or.inl rfl),
   (terminal_states_absorb
      { regDemo with mSessionState := SessionStatus.Closed }
      (DriverEvent.responseReceived 7 [HandleEvent.mk 1 9 0])).2 rfl⟩

/- Run-level lemmas for a session that never receives a response. -/

theorem setState_self {α : Type} (s : ClientKeepaliveHandler α)
    (st : SessionStatus) (h : s.mSessionState = st) :
    { s with mSessionState := st } = s := by
  cases s
  cases h
  rfl

theorem runTicks_terminal {α : Type} (s : ClientKeepaliveHandler α)
    (ts : List Nat)
    (h : s.mSessionState = SessionStatus.Expired ∨
         s.mSessionState = SessionStatus.Closed) :
    runTicks s ts = (s, []) := by
  induction ts with
  | nil => rfl
  | cons t ts ih =>
    simp only [runTicks, step_terminal s _ h, ih, List.nil_append]

theorem runTicks_deadlines {α : Type} (s : ClientKeepaliveHandler α)
    (ts : List Nat) :
    (runTicks s ts).1.mJeopardyTime = s.mJeopardyTime ∧
    (runTicks s ts).1.mExpireTime = s.mExpireTime := by
  induction ts generalizing s with
  | nil => exact ⟨rfl, rfl⟩
  | cons t ts ih =>
    have hf := step_timer_frame s t
    simp only [runTicks]
    exact ⟨((ih _).1).trans hf.1, ((ih _).2).trans hf.2.1⟩

theorem runTicks_quiet_connected {α : Type} (s : ClientKeepaliveHandler α)
    (ts : List Nat) (hC : s.mSessionState = SessionStatus.Connected)
    (hJE : s.mJeopardyTime ≤ s.mExpireTime) :
    (∀ t ∈ ts, t ≤ s.mJeopardyTime) → runTicks s ts = (s, []) := by
  induction ts with
  | nil => intro _; rfl
  | cons t ts ih =>
    intro hts
    have hstep := step_timer_quiet_connected s t hC hJE
      (hts t (List.mem_cons_self t ts))
    simp only [runTicks, hstep,
      ih (fun t' ht' => hts t' (List.mem_cons_of_mem t ht')), List.nil_append]

theorem runTicks_quiet_jeopardy {α : Type} (s : ClientKeepaliveHandler α)
    (ts : List Nat) (hJ : s.mSessionState = SessionStatus.Jeopardy) :
    (∀ t ∈ ts, t ≤ s.mExpireTime) → runTicks s ts = (s, []) := by
  induction ts with
  | nil => intro _; rfl
  | cons t ts ih =>
    intro hts
    have hstep := step_timer_quiet_jeopardy s t hJ
      (hts t (List.mem_cons_self t ts))
    simp only [runTicks, hstep,
      ih (fun t' ht' => hts t' (List.mem_cons_of_mem t ht')), List.nil_append]

theorem runTicks_reach_jeopardy {α : Type} (s : ClientKeepaliveHandler α)
    (ts : List Nat)
    (hCJ : s.mSessionState = SessionStatus.Connected ∨
           s.mSessionState = SessionStatus.Jeopardy)
    (hJE : s.mJeopardyTime ≤ s.mExpireTime) :
    (∀ t ∈ ts, t ≤ s.mExpireTime) → (∃ t ∈ ts, s.mJeopardyTime < t) →
    (runTicks s ts).1 = { s with mSessionState := SessionStatus.Jeopardy } := by
  rcases hCJ with hC | hJ
  · induction ts with
    | nil =>
      intro _ hex
      exact absurd hex (by simp)
    | cons t ts ih =>
      intro hts hex
      by_cases hJt : s.mJeopardyTime < t
      · have hstep := step_timer_jeopardy s t hC
          (hts t (List.mem_cons_self t ts)) hJt
        simp only [runTicks, hstep]
        rw [runTicks_quiet_jeopardy
          { s with mSessionState := SessionStatus.Jeopardy } ts rfl
          (fun t' ht' => hts t' (List.mem_cons_of_mem t ht'))]
      · have hstep := step_timer_quiet_connected s t hC hJE
          (Nat.not_lt.mp hJt)
        simp only [runTicks, hstep]
        refine ih (fun t' ht' => hts t' (List.mem_cons_of_mem t ht')) ?_
        rcases hex with ⟨t', ht', hlt⟩
        rcases List.mem_cons.mp ht' with rfl | hmem
        · exact absurd hlt hJt
        · exact ⟨t', hmem, hlt⟩
  · intro hts _
    rw [runTicks_quiet_jeopardy s ts hJ hts]
    exact (setState_self s _ hJ).symm

theorem runTicks_reach_expired {α : Type} (s : ClientKeepaliveHandler α)
    (ts : List Nat) :
    s.mSessionState ≠ SessionStatus.Closed →
    (∃ t ∈ ts, s.mExpireTime < t) →
    (runTicks s ts).1.mSessionState = SessionStatus.Expired := by
  induction ts generalizing s with
  | nil =>
    intro _ hex
    exact absurd hex (by simp)
  | cons t ts ih =>
    intro hnc hex
    by_cases hterm : s.mSessionState = SessionStatus.Expired ∨
        s.mSessionState = SessionStatus.Closed
    · have hE : s.mSessionState = SessionStatus.Expired := by
        rcases hterm with h | h
        · exact h
        · exact absurd h hnc
      rw [runTicks_terminal s (t :: ts) hterm]
      exact hE
    · by_cases hEt : s.mExpireTime < t
      · have hCJ : s.mSessionState = SessionStatus.Connected ∨
            s.mSessionState = SessionStatus.Jeopardy := by
          cases hst : s.mSessionState with
          | Connected => exact Or.inl rfl
          | Jeopardy => exact Or.inr rfl
          | Expired => exact absurd (Or.inl hst) hterm
          | Closed => exact absurd hst hnc
        have hstep := step_timer_expire s t hCJ hEt
        simp only [runTicks, hstep]
        rw [runTicks_terminal _ ts (Or.inl rfl)]
      · have hframe := step_timer_frame s t
        simp only [runTicks]
        refine ih _ (hframe.2.2 hnc) ?_
        rcases hex with ⟨t', ht', hlt⟩
        rcases List.mem_cons.mp ht' with rfl | hmem
        · exact absurd hlt hEt
        · exact ⟨t', hmem, by rw [hframe.2.1]; exact hlt⟩

/-- Claim C1: in a session established at `t0` that never receives a
renewing response, processing any sequence of timer ticks keeps the
deadlines at `jeopardy_deadline = t0 + lease_interval` and
`expire_deadline = jeopardy_deadline + grace_period`, and the status is
`Connected` while every tick time is at most `t0 + lease_interval`,
`Jeopardy` once some tick exceeds `t0 + lease_interval` but none exceeds
`t0 + lease_interval + grace_period`, and `Expired` once some tick exceeds
`t0 + lease_interval + grace_period` — never earlier. -/
theorem session_timeline (t0 L G : Nat) (ts : List Nat) :
    (runTicks (initHandler Unit t0 L G) ts).1.mJeopardyTime = t0 + L ∧
    (runTicks (initHandler Unit t0 L G) ts).1.mExpireTime = t0 + L + G ∧
    ((∀ t ∈ ts, t ≤ t0 + L) →
      (runTicks (initHandler Unit t0 L G) ts).1.mSessionState =
        SessionStatus.Connected) ∧
    ((∀ t ∈ ts, t ≤ t0 + L + G) → (∃ t ∈ ts, t0 + L < t) →
      (runTicks (initHandler Unit t0 L G) ts).1.mSessionState =
        SessionStatus.Jeopardy) ∧
    ((∃ t ∈ ts, t0 + L + G < t) →
      (runTicks (initHandler Unit t0 L G) ts).1.mSessionState =
        SessionStatus.Expired) := by
  refine ⟨(runTicks_deadlines _ ts).1, (runTicks_deadlines _ ts).2,
    fun hts => ?_, fun hts hex => ?_, fun hex => ?_⟩
  · rw [runTicks_quiet_connected (initHandler Unit t0 L G) ts rfl
      (Nat.le_add_right _ G) hts]
    rfl
  · rw [runTicks_reach_jeopardy (initHandler Unit t0 L G) ts (Or.inl rfl)
      (Nat.le_add_right _ G) hts hex]
  · exact runTicks_reach_expired (initHandler Unit t0 L G) ts
      (by simp [initHandler]) hex

/-- Claim C1 witness: with `t0 = 0`, `lease_interval = 10`,
`grace_period = 5` and no responses, ticks up to 10 leave the session
`Connected`, a tick at 12 puts it in `Jeopardy`, and a tick at 16 expires
it. -/
theorem session_timeline_witness :
    (runTicks (initHandler Unit 0 10 5) [3, 9]).1.mSessionState =
      SessionStatus.Connected ∧
    (runTicks (initHandler Unit 0 10 5) [3, 12]).1.mSessionState =
      SessionStatus.Jeopardy ∧
    (runTicks (initHandler Unit 0 10 5) [3, 12, 16]).1.mSessionState =
      SessionStatus.Expired :=
  ⟨(session_timeline 0 10 5 [3, 9]).2.2.1 (by decide),
   (session_timeline 0 10 5 [3, 12]).2.2.2.1 (by decide) (by decide),
   (session_timeline 0 10 5 [3, 12, 16]).2.2.2.2 (by decide)⟩

end Hyperspace
